import Mathlib

/-!
Verification development for the tractor_isobus implement-model core.

The C++ sources modelled here are the three example programs:
`src/unnamed/part_000`, `src/unnamed/part_001` and `src/examples/tag2.cpp`.
Strings are modelled as lists of characters (one `Char` per byte of the
`std::string`; every theorem that depends on byte arithmetic carries the
hypothesis that the characters are single bytes, i.e. `toNat < 256`).
Machine integers are modelled as `Nat`/`Int` with explicit wrap-around
where the source can overflow; 32-bit payloads are modelled as their
two's-complement bit pattern (a `Nat`), which agrees with the C++ shift
and mask operations used by the source on bits 0..31.
C++ exceptions (from `std::stoi`) and undefined behaviour (null-pointer
dereference) are modelled with `Except Unit`.
-/

/-! ## Character and string utilities (models of the C/C++ library calls) -/

/-- Model of `isspace` for the default C locale: space and the characters
with codes 9..13 (tab, newline, vertical tab, form feed, carriage return). -/
def isSpaceChar (c : Char) : Bool :=
  decide (c = ' ' ∨ (9 ≤ c.toNat ∧ c.toNat ≤ 13))

/-- Decimal digit test, as used by `strtol` with base 10. -/
def isDigitChar (c : Char) : Bool :=
  decide ('0' ≤ c ∧ c ≤ '9')

/-- Hexadecimal digit test, as used by `strtol` with base 16. -/
def isHexDigitChar (c : Char) : Bool :=
  decide (('0' ≤ c ∧ c ≤ '9') ∨ ('a' ≤ c ∧ c ≤ 'f') ∨ ('A' ≤ c ∧ c ≤ 'F'))

/-- Numeric value of a digit character (0 for non-digits; only applied to
characters accepted by the corresponding digit test). -/
def hexVal (c : Char) : Nat :=
  if '0' ≤ c ∧ c ≤ '9' then c.toNat - 48
  else if 'a' ≤ c ∧ c ≤ 'f' then c.toNat - 87
  else if 'A' ≤ c ∧ c ≤ 'F' then c.toNat - 55
  else 0

/-- Value of a digit string under a given base. -/
def digitsVal (base : Nat) (dval : Char → Nat) (ds : List Char) : Nat :=
  ds.foldl (fun a c => a * base + dval c) 0

/-- Model of `std::stoi(s, nullptr, base)` (which follows `strtol`):
skip whitespace, optional sign, for base 16 an optional `0x`/`0X` prefix
(consumed only when followed by a hex digit), then the longest run of
digits.  `none` models a thrown exception: `std::invalid_argument` when no
digit can be parsed, `std::out_of_range` when the value does not fit in a
C `int`. -/
def stoiWith (isDig : Char → Bool) (dval : Char → Nat) (base : Nat)
    (allowHexPrefix : Bool) (l : List Char) : Option Int :=
  let l1 := l.dropWhile isSpaceChar
  let sgn : Int := match l1 with | '-' :: _ => -1 | _ => 1
  let l2 := match l1 with | '+' :: r => r | '-' :: r => r | _ => l1
  let l3 :=
    if allowHexPrefix then
      match l2 with
      | '0' :: c :: r =>
          let headIsDig : Bool := match r with | d :: _ => isDig d | [] => false
          if (c == 'x' || c == 'X') && headIsDig then r else l2
      | _ => l2
    else l2
  let ds := l3.takeWhile isDig
  if ds.isEmpty then none
  else
    let v : Int := sgn * (Int.ofNat (digitsVal base dval ds))
    if v < -(2 ^ 31) ∨ 2 ^ 31 - 1 < v then none else some v

/-- `std::stoi(s, nullptr, 16)` as called by `validate_checksum`. -/
def stoi16 (l : List Char) : Option Int :=
  stoiWith isHexDigitChar hexVal 16 true l

/-- `std::stoi(s)` (base 10) as called by `parse_phtg` for the numeric fields. -/
def stoi10 (l : List Char) : Option Int :=
  stoiWith isDigitChar (fun c => c.toNat - 48) 10 false l

/-- The running XOR of `validate_checksum`:
`calc_cs ^= static_cast<std::uint8_t>(sentence[i])`.  The `uint8_t` cast is
the `% 256`. -/
def xorBytes (l : List Char) : Nat :=
  l.foldl (fun a c => a ^^^ c.toNat % 256) 0

/-- Model of `std::string::find(ch)`: index of the first occurrence,
`none` for `npos`. -/
def findChar (c : Char) : List Char → Option Nat
  | [] => none
  | x :: xs => if x = c then some 0 else (findChar c xs).map (· + 1)

/-- Accumulator-passing model of the `while (std::getline(ss, token, ','))`
loop: a delimiter emits the accumulated token and continues; end of input
emits the accumulated token only when at least one character was extracted
since the previous delimiter would otherwise have been consumed — i.e. a
trailing empty token at end of stream is NOT produced (`getline` fails
without extracting anything). -/
def getlineAux : List Char → List Char → List (List Char)
  | [], acc => if acc.isEmpty then [] else [acc]
  | c :: rest, acc =>
      if c = ',' then acc :: getlineAux rest []
      else getlineAux rest (acc ++ [c])

/-- The comma-token list produced by the `std::getline` loop of `parse_phtg`.
On empty input `getline` fails immediately and produces no token; note the
trailing-empty-token behaviour documented on `getlineAux`. -/
def getlineTokens (l : List Char) : List (List Char) :=
  getlineAux l []

/-! ## Sentence construction (the spec side, section 6 of the spec:
`$<TAG>,<fields>*<CS>` with `<CS>` two hex digits of the XOR of all bytes
between the leading `$` and the `*`). -/

/-- Upper-case hexadecimal digit for a value below 16. -/
def hexDigitChar (d : Nat) : Char :=
  if d < 10 then Char.ofNat (48 + d) else Char.ofNat (55 + d)

/-- Two-hex-digit rendering of a byte, as in `%02X`. -/
def toHex2 (n : Nat) : List Char :=
  [hexDigitChar (n / 16 % 16), hexDigitChar (n % 16)]

/-- Comma-join of a field list. -/
def joinComma : List (List Char) → List Char
  | [] => []
  | [f] => f
  | f :: rest => f ++ ',' :: joinComma rest

/-- Modelled from the spec: a sentence "built with a correctly computed
checksum" — `'$'`, then the payload, then `'*'` and the two hex digits of
the XOR of every payload byte. -/
def mkChecksumSentence (payload : List Char) : List Char :=
  '$' :: payload ++ '*' :: toHex2 (xorBytes payload)

/-- Modelled from the spec: the `$PHTG` sentence built from six fields with
a correctly computed checksum. -/
def mkPhtgSentence (fs : List (List Char)) : List Char :=
  mkChecksumSentence (['P', 'H', 'T', 'G', ','] ++ joinComma fs)

/-! ## `validate_checksum` (tag2.cpp lines 65-80 = part_000 lines 75-90) -/

/-- `validate_checksum`: locate `*`; fail when absent or when fewer than two
characters follow it; XOR the bytes at indices `1 .. star_pos - 1`; read the
two characters after `*` with `std::stoi(..., 16)` and compare.
`Except.error` models the exception escaping from `std::stoi`. -/
def validate_checksum (sentence : List Char) : Except Unit Bool :=
  match findChar '*' sentence with
  | none => .ok false
  | some star_pos =>
    if sentence.length ≤ star_pos + 2 then .ok false
    else
      let calc_cs := xorBytes ((sentence.drop 1).take (star_pos - 1))
      let cs_str := (sentence.drop (star_pos + 1)).take 2
      match stoi16 cs_str with
      | none => .error ()
      | some recv_cs => .ok (decide ((calc_cs : Int) = recv_cs))

/-! ## `parse_phtg` and `process_nmea_line`
(tag2.cpp lines 82-141 = part_000 lines 92-151) -/

/-- The record filled by `parse_phtg` (`struct PHTGData`). -/
structure PHTGData where
  date : List Char
  time : List Char
  system : List Char
  service : List Char
  auth_result : Int
  warning : Int
deriving Repr, DecidableEq

/-- The token list of the payload body: the substring from index 6 up to the
`*` (when the `*` sits before index 6 the `size_t` subtraction in
`substr(6, star_pos - 6)` wraps around and the rest of the string is taken),
split by the `getline` loop. -/
def bodyTokens (l : List Char) : List (List Char) :=
  match findChar '*' l with
  | none => []
  | some star_pos =>
      getlineTokens (if star_pos < 6 then l.drop 6 else (l.drop 6).take (star_pos - 6))

/-- One numeric field assignment of the parse loop:
`token.empty() ? 0 : std::stoi(token)`; absent token leaves the default 0;
`Except.error` models the `std::stoi` exception. -/
def parseAuthField : Option (List Char) → Except Unit Int
  | none => .ok 0
  | some t =>
      if t.isEmpty then .ok 0
      else match stoi10 t with
           | none => .error ()
           | some v => .ok v

/-- `parse_phtg`: tag check, checksum check, body extraction, comma split,
field assignment (the numeric fields run `std::stoi` during the loop, before
the final `field >= 6` test), success iff at least six fields. `.ok none`
models a `false` return, `.error` a thrown exception. -/
def parse_phtg (sentence : List Char) : Except Unit (Option PHTGData) :=
  if sentence.length < 5 then .ok none
  else if ¬ (sentence.take 5 = ['$', 'P', 'H', 'T', 'G']) then .ok none
  else
    match validate_checksum sentence with
    | .error e => .error e
    | .ok false => .ok none
    | .ok true =>
      match findChar '*' sentence with
      | none => .ok none
      | some _ =>
        let toks := bodyTokens sentence
        match parseAuthField toks[4]? with
        | .error e => .error e
        | .ok av =>
          match parseAuthField toks[5]? with
          | .error e => .error e
          | .ok wv =>
            if 6 ≤ toks.length then
              .ok (some { date := toks.getD 0 [], time := toks.getD 1 [],
                          system := toks.getD 2 [], service := toks.getD 3 [],
                          auth_result := av, warning := wv })
            else .ok none

/-- The two globals written by `process_nmea_line`
(`gnss_auth_status`, `gnss_warning`). -/
structure AuthState where
  gnss_auth_status : Int
  gnss_warning : Int
deriving Repr, DecidableEq

/-- `process_nmea_line`: tag pre-filter, then parse; on success store the two
parsed values, otherwise leave the state untouched.  A thrown `std::stoi`
exception propagates out (nothing catches it in the source). -/
def process_nmea_line (line : List Char) (st : AuthState) : Except Unit AuthState :=
  if 5 ≤ line.length ∧ line.take 5 = ['$', 'P', 'H', 'T', 'G'] then
    match parse_phtg line with
    | .error e => .error e
    | .ok none => .ok st
    | .ok (some d) => .ok { gnss_auth_status := d.auth_result, gnss_warning := d.warning }
  else .ok st

/-! ## Condensed working-state codec and the section-control simulator
(src/unnamed/part_001, class SectionControlImplementSimulator) -/

/-- The per-section 2-bit code chosen by the encode loops of
`request_value_command_callback` (part_001 lines 264-274 and 289-298):
for `i < numberOfSections` the boolean section state as `0`/`1`
(Off/On), otherwise `0x03` (Not Installed). -/
def condensedStepVal (n : Nat) (f : Nat → Bool) (i : Nat) : Nat :=
  if i < n then (if f i then 1 else 0) else 3

/-- The first `k` iterations of the encode loop:
`value |= code << (2 * i)` starting from `value = 0`. -/
def condensedFold (n : Nat) (f : Nat → Bool) (k : Nat) : Nat :=
  (List.range k).foldl (fun v i => v ||| (condensedStepVal n f i <<< (2 * i))) 0

/-- The full packed word produced by the encode loop
(`NUMBER_SECTIONS_PER_CONDENSED_MESSAGE = 16` iterations).  The source
accumulates into an `int32_t`; the value is modelled as the 32-bit pattern. -/
def encodeCondensed (n : Nat) (f : Nat → Bool) : Nat :=
  condensedFold n f 16

/-- The decode loop of `value_command_callback`
(part_001 lines 322-331), threading the loop index: for `i < 16` (and `i`
below the section count, enforced here by the length of the list being
updated) the stored boolean becomes
`0x01 == (processVariableValue >> (2 * i) & 0x03)`; the loop breaks at the
section count, and at 16 iterations. -/
def decodeCondensedInto (v : Nat) : Nat → List Bool → List Bool
  | _, [] => []
  | i, b :: rest =>
      (if i < 16 then decide ((v >>> (2 * i)) &&& 3 = 1) else b)
        :: decodeCondensedInto v (i + 1) rest

/-- Decode of a packed word into the per-section setpoint array
(the array's length is the configured section count). -/
def decodeCondensed (v : Nat) (a : List Bool) : List Bool :=
  decodeCondensedInto v 0 a

/-- The simulator state (the data members of
`SectionControlImplementSimulator`, part_001 lines 349-353).
`targetRate` is a `std::uint32_t`, modelled by its value. -/
structure SectionControlImplementSimulator where
  sectionSetpointStates : List Bool
  sectionSwitchStates : List Bool
  targetRate : Nat
  setpointWorkState : Bool
  isAutoMode : Bool
deriving Repr, DecidableEq

/-- `get_number_of_sections`. -/
def get_number_of_sections (s : SectionControlImplementSimulator) : Nat :=
  s.sectionSetpointStates.length

/-- `get_section_actual_state` (part_001 lines 76-82): setpoint state in
auto mode, local switch state in manual mode.  `.at(index)` is modelled by
`getD` (all source call sites stay below the section count). -/
def get_section_actual_state (s : SectionControlImplementSimulator) (index : Nat) : Bool :=
  if s.isAutoMode then s.sectionSetpointStates.getD index false
  else s.sectionSwitchStates.getD index false

/-- `get_section_setpoint_state`. -/
def get_section_setpoint_state (s : SectionControlImplementSimulator) (index : Nat) : Bool :=
  s.sectionSetpointStates.getD index false

/-- `get_section_switch_state`. -/
def get_section_switch_state (s : SectionControlImplementSimulator) (index : Nat) : Bool :=
  s.sectionSwitchStates.getD index false

/-- `get_actual_number_of_sections_on`: count of sections whose actual
state is true. -/
def get_actual_number_of_sections_on (s : SectionControlImplementSimulator) : Nat :=
  (List.range (get_number_of_sections s)).countP (fun i => get_section_actual_state s i)

/-- `get_actual_rate`: `targetRate * (anySectionOn ? 1 : 0)`. -/
def get_actual_rate (s : SectionControlImplementSimulator) : Nat :=
  s.targetRate * (if 0 < get_actual_number_of_sections_on s then 1 else 0)

/-- The `isobus::DataDescriptionIndex` values dispatched on by the two
callbacks.  The numeric values come from an external header; a C++ `switch`
requires all case labels to be distinct, which is what this inductive
models.  `other` covers every DDI without a case label. -/
inductive DDI where
  | maximumVolumeContent
  | actualVolumeContent
  | sectionControlState
  | prescriptionControlState
  | actualCondensedWorkState1_16
  | actualVolumePerAreaApplicationRate
  | actualWorkState
  | deviceElementOffsetX
  | deviceElementOffsetY
  | requestDefaultProcessData
  | actualWorkingWidth
  | setpointCondensedWorkState1_16
  | setpointVolumePerAreaApplicationRate
  | setpointWorkState
  | hashtagAuth
  | other (raw : Nat)
deriving Repr, DecidableEq

/-- `BOOM_WIDTH` (9144 mm). -/
def BOOM_WIDTH : Nat := 9144

/-- `request_value_command_callback` (part_001 lines 246-315): the value
stored through the `std::int32_t &value` out-parameter, modelled as the
32-bit pattern.  The element-number argument is ignored by the source.
`authStatus` models the global `auth_status` after the
`static_cast<std::uint32_t>` at line 305. -/
def request_value_command_callback (s : SectionControlImplementSimulator)
    (authStatus : Nat) (ddi : DDI) : Nat :=
  match ddi with
  | .maximumVolumeContent => 4000000
  | .actualVolumeContent => 3000000
  | .sectionControlState => if s.isAutoMode then 1 else 0
  | .prescriptionControlState => if s.isAutoMode then 1 else 0
  | .actualCondensedWorkState1_16 =>
      encodeCondensed (get_number_of_sections s) (fun i => get_section_actual_state s i)
  | .actualVolumePerAreaApplicationRate => get_actual_rate s
  | .actualWorkState => if 0 < get_actual_number_of_sections_on s then 1 else 0
  | .deviceElementOffsetX => 0
  | .deviceElementOffsetY => 0
  | .requestDefaultProcessData => 0
  | .actualWorkingWidth => BOOM_WIDTH
  | .setpointCondensedWorkState1_16 =>
      encodeCondensed (get_number_of_sections s) (fun i => get_section_setpoint_state s i)
  | .setpointVolumePerAreaApplicationRate => s.targetRate
  | .hashtagAuth => authStatus
  | _ => 0

/-- `value_command_callback` (part_001 lines 317-347): the state mutation
for a write.  `processVariableValue` is the 32-bit payload pattern. -/
def value_command_callback (ddi : DDI) (processVariableValue : Nat)
    (s : SectionControlImplementSimulator) : SectionControlImplementSimulator :=
  match ddi with
  | .setpointCondensedWorkState1_16 =>
      { s with sectionSetpointStates :=
          decodeCondensed processVariableValue s.sectionSetpointStates }
  | .setpointVolumePerAreaApplicationRate =>
      { s with targetRate := processVariableValue }
  | .setpointWorkState =>
      { s with setpointWorkState := decide (processVariableValue = 1) }
  | .prescriptionControlState =>
      { s with isAutoMode := decide (processVariableValue ≠ 0) }
  | .sectionControlState =>
      { s with isAutoMode := decide (processVariableValue ≠ 0) }
  | _ => s

/-! ## Foreground polling loops -/

/-- The guarded polling loop of tag2.cpp lines 358-368 (= part_000 lines
401-431): per poll, notify exactly when the loaded value differs from
`lastAuth`, and update `lastAuth` only then.  Result: one `Bool` per poll —
whether `on_value_changed_trigger` was called. -/
def tag2_poll_loop (lastAuth : Int) : List Int → List Bool
  | [] => []
  | a :: rest =>
      if a ≠ lastAuth then true :: tag2_poll_loop a rest
      else false :: tag2_poll_loop lastAuth rest

/-- Modelled from the spec ("exactly once per transition"): the expected
edge indicator — notify at a poll iff its value differs from the previous
poll (the stored last-observed value before the first poll). -/
def edgeFlags (lastObserved : Int) : List Int → List Bool
  | [] => []
  | a :: rest => decide (a ≠ lastObserved) :: edgeFlags a rest

/-- The main loop of part_001 (lines 416-444): once the client is started,
every iteration ends with an unconditional
`TestTCClient->on_value_changed_trigger(0, 65432)` — one notification per
iteration, regardless of whether `auth_status` changed. -/
def part001_trigger_per_iteration (polls : List Int) : List Bool :=
  polls.map (fun _ => true)

/-! ## DDOP builder (part_001 `create_ddop`, lines 117-244) -/

/-- The kinds of objects added to the pool. -/
inductive ObjKind where
  | device
  | element
  | processData
  | property
  | presentation
deriving Repr, DecidableEq

/-- The twelve `retVal &= poolToPopulate->add_...` calls of part_001
`create_ddop`, in source order (lines 127-191). -/
inductive AddStep where
  | device
  | mainElement
  | pdDeviceActualWorkState
  | pdHashtag
  | pdRequestDefault
  | pdTotalTime
  | connectorElement
  | pdConnectorXOffset
  | pdConnectorYOffset
  | propConnectorType
  | presShortWidth
  | presTime
deriving Repr, DecidableEq

/-- The `ImplementDDOPObjectIDs` value each add step passes as the object
ID (the enumerators are consecutive from `Device = 0`, with the four
256-wide section ranges between `Section1 = 18` and `SectionWidthMax`). -/
def stepObjectId : AddStep → Nat
  | .device => 0
  | .mainElement => 1
  | .pdDeviceActualWorkState => 2
  | .pdHashtag => 1053
  | .pdRequestDefault => 3
  | .pdTotalTime => 4
  | .connectorElement => 5
  | .pdConnectorXOffset => 6
  | .pdConnectorYOffset => 7
  | .propConnectorType => 8
  | .presShortWidth => 1052
  | .presTime => 1051

/-- The object kind created by each add step. -/
def stepKind : AddStep → ObjKind
  | .device => .device
  | .mainElement => .element
  | .pdDeviceActualWorkState => .processData
  | .pdHashtag => .processData
  | .pdRequestDefault => .processData
  | .pdTotalTime => .processData
  | .connectorElement => .element
  | .pdConnectorXOffset => .processData
  | .pdConnectorYOffset => .processData
  | .propConnectorType => .property
  | .presShortWidth => .presentation
  | .presTime => .presentation

/-- A pool object: ID, kind, and (for elements) the ordered child-object
reference list appended by `add_reference_to_child_object`. -/
structure PoolObj where
  id : Nat
  kind : ObjKind
  children : List Nat
deriving Repr, DecidableEq

/-- State threaded through the add phase: the executed add calls in order,
the accumulated `retVal`, and the pool contents (an add that the library
rejects contributes no object). -/
structure AddState where
  executed : List AddStep
  retVal : Bool
  pool : List PoolObj
deriving Repr, DecidableEq

/-- One `retVal &= poolToPopulate->add_...(...)` statement.  `&=` on `bool`
is the non-short-circuiting bitwise AND: the call (and hence the log entry)
happens regardless of the current `retVal`.  `addOk` is the external
library's success result for the step. -/
def doAdd (addOk : AddStep → Bool) (st : AddState) (s : AddStep) : AddState :=
  { executed := st.executed ++ [s],
    retVal := st.retVal && addOk s,
    pool := if addOk s then st.pool ++ [⟨stepObjectId s, stepKind s, []⟩] else st.pool }

/-- The fixed sequence of add calls of part_001 `create_ddop`. -/
def ddopAddSteps : List AddStep :=
  [.device, .mainElement, .pdDeviceActualWorkState, .pdHashtag, .pdRequestDefault,
   .pdTotalTime, .connectorElement, .pdConnectorXOffset, .pdConnectorYOffset,
   .propConnectorType, .presShortWidth, .presTime]

/-- The add phase of `create_ddop`: `poolToPopulate->clear()` (the initial
state is empty), then the twelve adds in order, `retVal` starting `true`. -/
def addPhase (addOk : AddStep → Bool) : AddState :=
  ddopAddSteps.foldl (doAdd addOk) ⟨[], true, []⟩

/-- `get_object_by_id`: `none` models the null `shared_ptr`. -/
def lookupObject (pool : List PoolObj) (objectId : Nat) : Option PoolObj :=
  pool.find? (fun e => e.id = objectId)

/-- One `element->add_reference_to_child_object(childId)` call through a
pointer obtained from `get_object_by_id`.  A null pointer (`none`) is
dereferenced by the source with no guard: undefined behaviour, modelled as
`Except.error`. -/
def wireRef (pool : List PoolObj) (target : Option PoolObj) (childId : Nat) :
    Except Unit (List PoolObj) :=
  match target with
  | none => .error ()
  | some obj =>
      .ok (pool.map (fun e =>
        if e.id = obj.id then { e with children := e.children ++ [childId] } else e))

/-- part_001 `create_ddop` (lines 117-244): the add phase, then — only when
`retVal` is true — the wiring phase, which looks up the four elements
`MainDeviceElement` (1), `Connector` (5), `SprayBoom` (9) and
`LiquidProduct` (1044) and appends child references through the returned
pointers.  `SprayBoom` and `LiquidProduct` are never added by the add phase,
so on the all-adds-succeed path `boom` is a null pointer and the first
`boom->add_reference_to_child_object(...)` (line 220) is undefined
behaviour.  (The later `product` references, lines 232-241, are unreachable;
line 241 even names an enumerator `ActualRate` that the enum does not
declare.)  The result is the returned `retVal`. -/
def create_ddop (addOk : AddStep → Bool) : Except Unit Bool :=
  let a := addPhase addOk
  if a.retVal then do
    let sprayer := lookupObject a.pool 1
    let connector := lookupObject a.pool 5
    let boom := lookupObject a.pool 9
    let product := lookupObject a.pool 1044
    let p ← wireRef a.pool sprayer 2      -- DeviceActualWorkState
    let p ← wireRef p sprayer 13          -- SetpointWorkState
    let p ← wireRef p sprayer 4           -- DeviceTotalTime
    let p ← wireRef p sprayer 3           -- RequestDefaultProcessData
    let p ← wireRef p sprayer 1053        -- HashtagParameter
    let p ← wireRef p connector 6         -- ConnectorXOffset
    let p ← wireRef p connector 7         -- ConnectorYOffset
    let p ← wireRef p connector 8         -- ConnectorType
    let p ← wireRef p boom 15             -- BoomXOffset: boom is null here
    let p ← wireRef p boom 16             -- BoomYOffset
    let p ← wireRef p boom 17             -- BoomZOffset
    let p ← wireRef p boom 11             -- ActualWorkingWidth
    let p ← wireRef p boom 14             -- SectionControlState
    let p ← wireRef p boom 12             -- AreaTotal
    let p ← wireRef p boom 1042           -- ActualCondensedWorkingState1To16
    let p ← wireRef p boom 1043           -- SetpointCondensedWorkingState1To16
    let p ← wireRef p product 1045        -- TankCapacity
    let p ← wireRef p product 1046        -- TankVolume
    let p ← wireRef p product 1047        -- LifetimeApplicationVolumeTotal
    let p ← wireRef p product 1048        -- PrescriptionControlState
    let p ← wireRef p product 1049        -- ActualCulturalPractice
    let _ ← wireRef p product 1050        -- TargetRate
    pure a.retVal
  else pure a.retVal

/-- Modelled from the spec (section 4.1), with the two amendments forced by
the counterexample: the sentence is valid when it contains a `*` (the first
occurrence) with at least two characters after it, the two characters
following the `*` parse under the `std::stoi`/`strtol` base-16 semantics,
and the parsed value equals the XOR of every byte from the second character
up to but excluding the `*`. -/
def checksumSpecValid (s : List Char) : Prop :=
  ∃ p v, findChar '*' s = some p ∧ p + 3 ≤ s.length ∧
    stoi16 ((s.drop (p + 1)).take 2) = some v ∧
    ((xorBytes ((s.drop 1).take (p - 1)) : Int) = v)


/-! ## Helper lemmas: bit extraction from the condensed encode fold -/

theorem condensedFold_succ (n : Nat) (f : Nat → Bool) (k : Nat) :
    condensedFold n f (k + 1) =
      condensedFold n f k ||| (condensedStepVal n f k <<< (2 * k)) := by
  unfold condensedFold
  rw [List.range_succ, List.foldl_append]
  simp

theorem condensedStepVal_lt (n : Nat) (f : Nat → Bool) (i : Nat) :
    condensedStepVal n f i < 4 := by
  unfold condensedStepVal
  split
  · split <;> omega
  · omega

theorem testBit_condensedFold (n : Nat) (f : Nat → Bool) (k : Nat) :
    ∀ j, (condensedFold n f k).testBit j =
      if j < 2 * k then (condensedStepVal n f (j / 2)).testBit (j % 2) else false := by
  induction k with
  | zero =>
    intro j
    simp [condensedFold]
  | succ k ih =>
    intro j
    rw [condensedFold_succ, Nat.testBit_or, ih j, Nat.testBit_shiftLeft]
    by_cases h1 : j < 2 * k
    · have h2 : j < 2 * (k + 1) := by omega
      have h3 : ¬ (2 * k ≤ j) := by omega
      simp [h1, h2, h3]
    · by_cases h2 : j < 2 * (k + 1)
      · have hd : j / 2 = k := by omega
        have hm : j - 2 * k = j % 2 := by omega
        have hge : 2 * k ≤ j := by omega
        simp [h1, h2, hd, hm, hge]
      · have h4 : (condensedStepVal n f k).testBit (j - 2 * k) = false := by
          apply Nat.testBit_lt_two_pow
          calc condensedStepVal n f k < 4 := condensedStepVal_lt n f k
            _ = 2 ^ 2 := by norm_num
            _ ≤ 2 ^ (j - 2 * k) := Nat.pow_le_pow_right (by norm_num) (by omega)
        simp [h1, h2, h4]

theorem and3_mod (x : Nat) : x &&& 3 = x % 4 := by
  have h := Nat.and_pow_two_sub_one_eq_mod x 2
  norm_num at h
  exact h

theorem shiftRight_and_three (e k : Nat) :
    (e >>> k) &&& 3 =
      2 * (if e.testBit (k + 1) then 1 else 0) + (if e.testBit k then 1 else 0) := by
  rw [and3_mod, Nat.shiftRight_eq_div_pow]
  have h0 : e.testBit k = decide (e / 2 ^ k % 2 = 1) := Nat.testBit_to_div_mod
  have h1 : e.testBit (k + 1) = decide (e / 2 ^ k / 2 % 2 = 1) := by
    rw [Nat.testBit_to_div_mod]
    congr 2
    rw [Nat.div_div_eq_div_mul, ← Nat.pow_succ]
  rw [h0, h1]
  simp only [decide_eq_true_eq]
  generalize e / 2 ^ k = y
  split_ifs <;> omega

theorem encodeCondensed_field (n : Nat) (f : Nat → Bool) (i : Nat) (h : i < 16) :
    ((encodeCondensed n f) >>> (2 * i)) &&& 3 = condensedStepVal n f i := by
  rw [shiftRight_and_three]
  have hb0 := testBit_condensedFold n f 16 (2 * i)
  have hb1 := testBit_condensedFold n f 16 (2 * i + 1)
  have h1 : 2 * i < 2 * 16 := by omega
  have h2 : 2 * i + 1 < 2 * 16 := by omega
  have e1 : 2 * i / 2 = i := by omega
  have e2 : 2 * i % 2 = 0 := by omega
  have e3 : (2 * i + 1) / 2 = i := by omega
  have e4 : (2 * i + 1) % 2 = 1 := by omega
  rw [if_pos h1, e1, e2] at hb0
  rw [if_pos h2, e3, e4] at hb1
  rw [show encodeCondensed n f = condensedFold n f 16 from rfl, hb0, hb1]
  by_cases hin : i < n
  · by_cases hf : f i
    · simp only [condensedStepVal, if_pos hin, if_pos hf]
      decide
    · simp only [condensedStepVal, if_pos hin, if_neg hf]
      decide
  · simp only [condensedStepVal, if_neg hin]
    decide

/-! ## Helper lemmas: the decode loop -/

theorem decodeCondensedInto_length (v : Nat) :
    ∀ (pr : List Bool) (i : Nat), (decodeCondensedInto v i pr).length = pr.length := by
  intro pr
  induction pr with
  | nil => intro i; rfl
  | cons b rest ih => intro i; simp [decodeCondensedInto, ih]

theorem decodeCondensedInto_getD (v : Nat) :
    ∀ (pr : List Bool) (i k : Nat),
      (decodeCondensedInto v i pr).getD k false =
        if k < pr.length then
          (if i + k < 16 then decide ((v >>> (2 * (i + k))) &&& 3 = 1)
           else pr.getD k false)
        else false := by
  intro pr
  induction pr with
  | nil =>
    intro i k
    simp [decodeCondensedInto]
  | cons b rest ih =>
    intro i k
    match k with
    | 0 => simp [decodeCondensedInto]
    | k + 1 =>
      have h := ih (i + 1) k
      simp only [decodeCondensedInto, List.getD_cons_succ, h, List.length_cons]
      have e1 : i + 1 + k = i + (k + 1) := by omega
      have e2 : (k + 1 < rest.length + 1) = (k < rest.length) := by
        simp
      rw [e1]
      by_cases hk : k < rest.length
      · simp [hk]
      · simp [hk]

theorem list_bool_ext (xs ys : List Bool) (hl : xs.length = ys.length)
    (h : ∀ k, k < xs.length → xs.getD k false = ys.getD k false) : xs = ys := by
  induction xs generalizing ys with
  | nil =>
    cases ys with
    | nil => rfl
    | cons y ys => simp at hl
  | cons x xs ih =>
    cases ys with
    | nil => simp at hl
    | cons y ys =>
      have h0 := h 0 (by simp)
      simp only [List.getD_cons_zero] at h0
      subst h0
      have := ih ys (by simpa using hl) (fun k hk => by
        have := h (k + 1) (by simpa using Nat.succ_lt_succ hk)
        simpa using this)
      rw [this]

theorem decodeCondensedInto_congr (v w n : Nat)
    (hvw : ∀ j, j < 2 * n → v.testBit j = w.testBit j) :
    ∀ (pr : List Bool) (i : Nat), i + pr.length ≤ n →
      decodeCondensedInto v i pr = decodeCondensedInto w i pr := by
  intro pr
  induction pr with
  | nil => intro i _; rfl
  | cons b rest ih =>
    intro i hi
    have hin : i < n := by simp at hi; omega
    have harg : (v >>> (2 * i)) &&& 3 = (w >>> (2 * i)) &&& 3 := by
      rw [shiftRight_and_three, shiftRight_and_three,
          hvw (2 * i) (by omega), hvw (2 * i + 1) (by omega)]
    simp only [decodeCondensedInto, harg]
    rw [ih (i + 1) (by simp at hi ⊢; omega)]

/-! ## Claim C1: condensed working-state codec round-trip -/

/-- C1 (confirmed).  Condensed working-state codec round-trip: for a
boolean setpoint array of length at most 16 (the stored array's length is
the configured section count), decoding the packed word produced by the
Setpoint Condensed Work State encode into any same-length array restores
the original boolean values at every index below the section count; for
every index from the section count up to 15 the encoded 2-bit field is
`0b11` (Not Installed); and decode depends only on the bits of the fields
below the section count (it ignores the bits at the higher indices). -/
theorem condensed_codec_roundtrip (a prior : List Bool)
    (hlen : prior.length = a.length) (hle : a.length ≤ 16) :
    decodeCondensed (encodeCondensed a.length (fun i => a.getD i false)) prior = a
    ∧ (∀ i, a.length ≤ i → i < 16 →
        ((encodeCondensed a.length (fun i => a.getD i false)) >>> (2 * i)) &&& 3 = 3)
    ∧ (∀ v w, (∀ j, j < 2 * a.length → v.testBit j = w.testBit j) →
        decodeCondensed v prior = decodeCondensed w prior) := by
  refine ⟨?_, ?_, ?_⟩
  · apply list_bool_ext
    · rw [decodeCondensed, decodeCondensedInto_length, hlen]
    · intro k hk
      rw [decodeCondensed, decodeCondensedInto_length] at hk
      rw [decodeCondensed, decodeCondensedInto_getD]
      have hka : k < a.length := by omega
      have hk16 : 0 + k < 16 := by omega
      rw [if_pos (by omega : k < prior.length), if_pos hk16]
      have hf := encodeCondensed_field a.length (fun i => a.getD i false) k (by omega)
      rw [show 2 * (0 + k) = 2 * k from by omega, hf,
          condensedStepVal, if_pos hka]
      cases hav : a.getD k false <;> simp
  · intro i hni hi16
    have hf := encodeCondensed_field a.length (fun i => a.getD i false) i hi16
    rw [hf, condensedStepVal, if_neg (by omega)]
  · intro v w hvw
    exact decodeCondensedInto_congr v w a.length hvw prior 0 (by omega)

/-- C1 witness: the round-trip theorem applied to a concrete three-section
array. -/
theorem condensed_codec_roundtrip_witness :
    (([false, false, false] : List Bool).length = ([true, false, true] : List Bool).length
      ∧ ([true, false, true] : List Bool).length ≤ 16)
    ∧ (decodeCondensed
          (encodeCondensed ([true, false, true] : List Bool).length
            (fun i => ([true, false, true] : List Bool).getD i false))
          [false, false, false] = [true, false, true]
        ∧ (∀ i, ([true, false, true] : List Bool).length ≤ i → i < 16 →
            ((encodeCondensed ([true, false, true] : List Bool).length
                (fun i => ([true, false, true] : List Bool).getD i false)) >>> (2 * i)) &&& 3 = 3)
        ∧ (∀ v w, (∀ j, j < 2 * ([true, false, true] : List Bool).length →
              v.testBit j = w.testBit j) →
            decodeCondensed v [false, false, false] = decodeCondensed w [false, false, false])) :=
  ⟨⟨rfl, by decide⟩,
   condensed_codec_roundtrip [true, false, true] [false, false, false] rfl (by decide)⟩

/-! ## Claim C7: mode state machine -/

/-- C7 (confirmed).  In every state a section's actual state equals its
setpoint state when the mode flag is Auto and its local switch state when
the flag is Manual; a write to either control-state DDI (Section or
Prescription Control State) sets the flag to Auto exactly for nonzero
payloads and to Manual for zero; and a write with any other DDI leaves the
mode flag unchanged. -/
theorem mode_state_machine :
    (∀ s i, s.isAutoMode = true →
        get_section_actual_state s i = get_section_setpoint_state s i)
    ∧ (∀ s i, s.isAutoMode = false →
        get_section_actual_state s i = get_section_switch_state s i)
    ∧ (∀ s v, (value_command_callback .prescriptionControlState v s).isAutoMode = decide (v ≠ 0)
        ∧ (value_command_callback .sectionControlState v s).isAutoMode = decide (v ≠ 0))
    ∧ (∀ s v ddi, ddi ≠ .prescriptionControlState → ddi ≠ .sectionControlState →
        (value_command_callback ddi v s).isAutoMode = s.isAutoMode) := by
  refine ⟨?_, ?_, ?_, ?_⟩
  · intro s i h
    simp [get_section_actual_state, get_section_setpoint_state, h]
  · intro s i h
    simp [get_section_actual_state, get_section_switch_state, h]
  · intro s v
    exact ⟨rfl, rfl⟩
  · intro s v ddi h1 h2
    cases ddi <;> first | rfl | exact absurd rfl h1 | exact absurd rfl h2

/-- C7 witness: applied to a concrete one-section simulator state. -/
theorem mode_state_machine_witness :
    (get_section_actual_state ⟨[true], [false], 100000, true, true⟩ 0 =
        get_section_setpoint_state ⟨[true], [false], 100000, true, true⟩ 0)
    ∧ ((value_command_callback .sectionControlState 1
          ⟨[true], [false], 100000, true, false⟩).isAutoMode = decide ((1 : Nat) ≠ 0))
    ∧ ((value_command_callback .setpointWorkState 1
          ⟨[true], [false], 100000, true, true⟩).isAutoMode =
        (⟨[true], [false], 100000, true, true⟩ :
          SectionControlImplementSimulator).isAutoMode) :=
  ⟨mode_state_machine.1 ⟨[true], [false], 100000, true, true⟩ 0 rfl,
   (mode_state_machine.2.2.1 ⟨[true], [false], 100000, true, false⟩ 1).2,
   mode_state_machine.2.2.2 ⟨[true], [false], 100000, true, true⟩ 1 .setpointWorkState
     (by decide) (by decide)⟩

/-! ## Claim C8: derived reads -/

/-- C8 (confirmed).  In every state the Actual Work State read returns 1
exactly when the count of sections whose actual state is true is positive
(else 0), and the actual-rate read returns the target rate when that count
is positive and 0 otherwise — binary gating, never scaled by the number of
sections on. -/
theorem derived_reads :
    ∀ (s : SectionControlImplementSimulator) (auth : Nat),
      request_value_command_callback s auth .actualWorkState =
        (if 0 < get_actual_number_of_sections_on s then 1 else 0)
      ∧ request_value_command_callback s auth .actualVolumePerAreaApplicationRate =
        (if 0 < get_actual_number_of_sections_on s then s.targetRate else 0) := by
  intro s auth
  constructor
  · rfl
  · show get_actual_rate s = _
    rw [get_actual_rate]
    by_cases h : 0 < get_actual_number_of_sections_on s
    · simp [h]
    · simp [h]

/-! ## Claim C10: frame effect of the condensed setpoint write -/

/-- C10 (confirmed).  A write dispatched with the Setpoint Condensed Work
State DDI changes only the per-section setpoint array (and even there only
entries whose index is below the section count, the array's length, which
is preserved): the switch-state array, the auto/manual mode flag, the
target rate and the work-state setpoint are all unchanged. -/
theorem condensed_setpoint_write_frame :
    ∀ (s : SectionControlImplementSimulator) (v : Nat),
      (value_command_callback .setpointCondensedWorkState1_16 v s).sectionSwitchStates =
          s.sectionSwitchStates
      ∧ (value_command_callback .setpointCondensedWorkState1_16 v s).isAutoMode = s.isAutoMode
      ∧ (value_command_callback .setpointCondensedWorkState1_16 v s).targetRate = s.targetRate
      ∧ (value_command_callback .setpointCondensedWorkState1_16 v s).setpointWorkState =
          s.setpointWorkState
      ∧ (value_command_callback .setpointCondensedWorkState1_16 v s).sectionSetpointStates.length =
          s.sectionSetpointStates.length := by
  intro s v
  refine ⟨rfl, rfl, rfl, rfl, ?_⟩
  show (decodeCondensed v s.sectionSetpointStates).length = _
  rw [decodeCondensed, decodeCondensedInto_length]

/-! ## Claim C9: edge-triggered notification -/

/-- C9 counterexample.  The claim quantifies over "the foreground polling
loop", citing both tag2.cpp lines 358-368 and part_001 lines 434-442; the
part_001 loop calls `on_value_changed_trigger` unconditionally on every
iteration, so across five polls with auth values `0, 0, 1, 1, 0` it emits
five notifications, not the claimed two, and it does notify on repeated
identical polls. -/
theorem part001_loop_not_edge_triggered :
    (part001_trigger_per_iteration [0, 0, 1, 1, 0]).count true = 5
    ∧ ¬ ((part001_trigger_per_iteration [0, 0, 1, 1, 0]).count true = 2) := by
  decide

/-- C9 (corrected).  The guarded polling loops (tag2.cpp lines 358-368 and
part_000 lines 410-416) are edge-triggered: they notify at a poll exactly
when the polled value differs from the previous one (with the stored
last-observed value before the first poll), hence exactly once per
transition and never on repeated identical polls; in particular the
sequence `0, 0, 1, 1, 0` from last-observed `0` notifies exactly at
indices 2 and 4.  The part_001 loop, by contrast, notifies unconditionally
on every iteration (see the counterexample). -/
theorem tag2_loop_edge_triggered :
    (∀ (lastAuth : Int) (polls : List Int),
        tag2_poll_loop lastAuth polls = edgeFlags lastAuth polls)
    ∧ tag2_poll_loop 0 [0, 0, 1, 1, 0] = [false, false, true, false, true]
    ∧ ([false, false, true, false, true].count true = 2) := by
  refine ⟨?_, by decide, by decide⟩
  intro lastAuth polls
  induction polls generalizing lastAuth with
  | nil => rfl
  | cons a rest ih =>
    by_cases h : a = lastAuth
    · subst h
      simp [tag2_poll_loop, edgeFlags, ih]
    · simp [tag2_poll_loop, edgeFlags, h, ih]

/-! ## Claim C2: the DDOP builder does not short-circuit -/

/-- C2 (confirmed).  For every outcome assignment of the external add
operations, the part_001 `create_ddop` add phase executes all twelve add
steps in their fixed order regardless of earlier failures (the `&=`
accumulation never skips a call), and the accumulated success flag — the
value the function returns when it returns — equals the logical AND of the
individual step results; in particular it is false whenever any single add
fails. -/
theorem builder_no_short_circuit :
    ∀ addOk : AddStep → Bool,
      (addPhase addOk).executed = ddopAddSteps
      ∧ (addPhase addOk).retVal = ddopAddSteps.all addOk
      ∧ (∀ s, s ∈ ddopAddSteps → addOk s = false → (addPhase addOk).retVal = false) := by
  intro addOk
  refine ⟨?_, ?_, ?_⟩
  · simp [addPhase, ddopAddSteps, doAdd]
  · simp [addPhase, ddopAddSteps, doAdd, Bool.and_assoc]
  · intro s hs hfalse
    have hall : ddopAddSteps.all addOk = false :=
      List.all_eq_false.mpr ⟨s, hs, by simp [hfalse]⟩
    have h2 : (addPhase addOk).retVal = ddopAddSteps.all addOk := by
      simp [addPhase, ddopAddSteps, doAdd, Bool.and_assoc]
    rw [h2, hall]

/-- C2 witness: with the Connector-element add failing and all others
succeeding, all twelve steps still execute and the flag is false. -/
theorem builder_no_short_circuit_witness :
    (addPhase (fun s => !(s == .connectorElement))).executed = ddopAddSteps
    ∧ (addPhase (fun s => !(s == .connectorElement))).retVal =
        ddopAddSteps.all (fun s => !(s == .connectorElement))
    ∧ ((.connectorElement : AddStep) ∈ ddopAddSteps →
        (fun s => !(s == AddStep.connectorElement)) .connectorElement = false →
        (addPhase (fun s => !(s == .connectorElement))).retVal = false) :=
  ⟨(builder_no_short_circuit (fun s => !(s == .connectorElement))).1,
   (builder_no_short_circuit (fun s => !(s == .connectorElement))).2.1,
   (builder_no_short_circuit (fun s => !(s == .connectorElement))).2.2 .connectorElement⟩

/-! ## Claim C6: wiring steps with failed element lookup -/

/-- C6 (code bug in part_001).  The claim — and the spec — say a wiring
step whose element lookup returns no object is skipped silently.  tag2.cpp
(lines 249-254) and part_000 (lines 280-286) do guard the wiring with
`if (element)`, but part_001 (lines 193-242) does not: its add phase never
adds objects with the `SprayBoom` (9) or `LiquidProduct` (1044) IDs, so on
the path where every add succeeds the `boom` lookup returns a null pointer
and `boom->add_reference_to_child_object(...)` (line 220) dereferences it:
undefined behaviour (modelled as `Except.error`), not a silent skip. -/
theorem part001_wiring_null_dereference :
    lookupObject (addPhase (fun _ => true)).pool 9 = none
    ∧ create_ddop (fun _ => true) = .error () := by
  constructor
  · rfl
  · rfl

/-! ## Helper lemmas: XOR checksum arithmetic -/

theorem xorBytes_foldl_init (l : List Char) :
    ∀ a : Nat, l.foldl (fun x c => x ^^^ c.toNat % 256) a = a ^^^ xorBytes l := by
  induction l with
  | nil => intro a; simp [xorBytes]
  | cons c rest ih =>
    intro a
    show List.foldl _ (a ^^^ c.toNat % 256) rest =
      a ^^^ List.foldl _ (0 ^^^ c.toNat % 256) rest
    rw [ih, ih]
    simp [Nat.xor_assoc]

theorem xorBytes_cons (c : Char) (l : List Char) :
    xorBytes (c :: l) = c.toNat % 256 ^^^ xorBytes l := by
  rw [xorBytes, List.foldl_cons, xorBytes_foldl_init]
  simp

theorem xorBytes_lt_256 (l : List Char) : xorBytes l < 256 := by
  induction l with
  | nil => simp [xorBytes]
  | cons c rest ih =>
    rw [xorBytes_cons]
    have h1 : c.toNat % 256 < 2 ^ 8 := by
      calc c.toNat % 256 < 256 := Nat.mod_lt _ (by norm_num)
        _ = 2 ^ 8 := by norm_num
    have h2 : xorBytes rest < 2 ^ 8 := by
      calc xorBytes rest < 256 := ih
        _ = 2 ^ 8 := by norm_num
    have h3 := Nat.xor_lt_two_pow h1 h2
    norm_num at h3
    exact h3

theorem xor_xor_cancel_left (x a b : Nat) : (x ^^^ a) ^^^ (x ^^^ b) = a ^^^ b := by
  rw [Nat.xor_comm x a, Nat.xor_assoc, ← Nat.xor_assoc x x, Nat.xor_self, Nat.zero_xor]

theorem xorBytes_set (p : List Char) :
    ∀ (i : Nat) (b : Char), i < p.length →
      xorBytes (p.set i b) ^^^ xorBytes p = b.toNat % 256 ^^^ (p.getD i b).toNat % 256 := by
  induction p with
  | nil => intro i b h; simp at h
  | cons c rest ih =>
    intro i b h
    match i with
    | 0 =>
      simp only [List.set_cons_zero, List.getD_cons_zero]
      rw [xorBytes_cons, xorBytes_cons]
      rw [Nat.xor_comm (b.toNat % 256) (xorBytes rest),
          Nat.xor_comm (c.toNat % 256) (xorBytes rest)]
      rw [xor_xor_cancel_left]
    | i + 1 =>
      simp only [List.set_cons_succ, List.getD_cons_succ]
      rw [xorBytes_cons, xorBytes_cons, xor_xor_cancel_left]
      exact ih i b (by simpa using Nat.lt_of_succ_lt_succ h)

/-! ## Helper lemmas: locating the checksum delimiter -/

theorem findChar_append_of_not_mem (c : Char) (q rest : List Char) (hq : c ∉ q) :
    findChar c (q ++ c :: rest) = some q.length := by
  induction q with
  | nil => simp [findChar]
  | cons x xs ih =>
    have hx : ¬ (x = c) := fun h => hq (h ▸ List.mem_cons_self x xs)
    have hxs : c ∉ xs := fun h => hq (List.mem_cons_of_mem x h)
    simp [List.cons_append, findChar, hx, ih hxs]

theorem findChar_mkChecksumSentence (payload : List Char) (r : Nat) (hp : '*' ∉ payload) :
    findChar '*' ('$' :: payload ++ '*' :: toHex2 r) = some (payload.length + 1) := by
  show findChar '*' ('$' :: (payload ++ '*' :: toHex2 r)) = _
  rw [findChar, if_neg (by decide), findChar_append_of_not_mem '*' payload _ hp]
  rfl

/-! ## Helper lemmas: evaluating `validate_checksum` on a built sentence -/

set_option maxRecDepth 8000 in
theorem stoi16_toHex2 : ∀ r, r < 256 → stoi16 (toHex2 r) = some (Int.ofNat r) := by
  decide

theorem validate_checksum_built (q : List Char) (r : Nat) (hq : '*' ∉ q) (hr : r < 256) :
    validate_checksum ('$' :: q ++ '*' :: toHex2 r) =
      .ok (decide ((xorBytes q : Int) = (r : Int))) := by
  have hstar := findChar_mkChecksumSentence q r hq
  have hlen : ('$' :: q ++ '*' :: toHex2 r).length = q.length + 4 := by
    simp [toHex2]
  have hdrop1 : (('$' :: q ++ '*' :: toHex2 r).drop 1).take (q.length + 1 - 1) = q := by
    show (q ++ '*' :: toHex2 r).take (q.length + 1 - 1) = q
    rw [show q.length + 1 - 1 = q.length from by omega, List.take_left]
  have hdrop2 : (('$' :: q ++ '*' :: toHex2 r).drop (q.length + 1 + 1)).take 2 = toHex2 r := by
    show ((q ++ '*' :: toHex2 r).drop (q.length + 1)).take 2 = toHex2 r
    rw [show q ++ '*' :: toHex2 r = (q ++ ['*']) ++ toHex2 r from by simp,
        show q.length + 1 = (q ++ ['*']).length from by simp,
        List.drop_left]
    simp [toHex2]
  simp only [validate_checksum, hstar]
  rw [if_neg (by omega : ¬ ('$' :: q ++ '*' :: toHex2 r).length ≤ q.length + 1 + 2)]
  rw [hdrop1, hdrop2, stoi16_toHex2 r hr]
  rfl

/-! ## Claim C3: checksum validation -/

/-- C3 counterexample.  Two concrete facts contradicting the claim as
stated.  (1) `"$A00B*+3"`: the two characters after `*` are `"+3"`, not a
two-hex-digit byte, yet validation succeeds, because `std::stoi` accepts a
sign — so "succeeds exactly when … read as a hexadecimal byte …" is false.
(2) `"$A00B*03"` is a correctly built sentence; mutating its single payload
byte `'A'` (index 1 of the sentence) to `'*'` — without recomputing the
checksum — gives `"$*00B*03"`, and validation still SUCCEEDS (the first
`*` moves, the XOR range becomes empty = `0x00`, and the two following
characters read `"00"`), so "mutating any single payload byte … makes
validation fail" is false. -/
theorem checksum_claim_counterexample :
    validate_checksum ['$', 'A', '0', '0', 'B', '*', '+', '3'] = .ok true
    ∧ isHexDigitChar '+' = false
    ∧ validate_checksum ['$', 'A', '0', '0', 'B', '*', '0', '3'] = .ok true
    ∧ ['$', 'A', '0', '0', 'B', '*', '0', '3'].set 1 '*' =
        ['$', '*', '0', '0', 'B', '*', '0', '3']
    ∧ validate_checksum ['$', '*', '0', '0', 'B', '*', '0', '3'] = .ok true :=
  ⟨rfl, by decide, rfl, by decide, rfl⟩

/-- C3 (corrected).  (i) Validation succeeds exactly when the sentence
satisfies `checksumSpecValid` (first `*` with at least two characters after
it, those characters parse under `stoi` base-16 semantics, parsed value
equals the XOR of the bytes between the leading sentinel and the `*`).
(ii) Any sentence built over a star-free payload with a correctly computed
two-hex-digit checksum validates.  (iii) Mutating any single payload byte
of such a built sentence to a DIFFERENT byte value OTHER THAN the `*`
delimiter, without recomputing the checksum, makes validation fail. -/
theorem checksum_validation_correct :
    (∀ s : List Char, validate_checksum s = .ok true ↔ checksumSpecValid s)
    ∧ (∀ payload : List Char, '*' ∉ payload →
        validate_checksum (mkChecksumSentence payload) = .ok true)
    ∧ (∀ (payload : List Char) (i : Nat) (b : Char), '*' ∉ payload →
        i < payload.length → b ≠ '*' →
        b.toNat % 256 ≠ (payload.getD i b).toNat % 256 →
        validate_checksum ('$' :: payload.set i b ++ '*' :: toHex2 (xorBytes payload)) =
          .ok false) := by
  refine ⟨?_, ?_, ?_⟩
  · intro s
    cases hf : findChar '*' s with
    | none =>
      simp [validate_checksum, hf, checksumSpecValid]
    | some p =>
      simp only [validate_checksum, hf, checksumSpecValid, Option.some.injEq]
      by_cases hl : s.length ≤ p + 2
      · rw [if_pos hl]
        constructor
        · intro h; exact absurd h (by simp)
        · rintro ⟨p2, v, heq, hlen, -, -⟩
          omega
      · rw [if_neg hl]
        cases hs : stoi16 ((s.drop (p + 1)).take 2) with
        | none =>
          constructor
          · intro h; exact absurd h (by simp)
          · rintro ⟨p2, v, heq, -, hv, -⟩
            cases heq
            rw [hs] at hv
            cases hv
        | some recv =>
          constructor
          · intro h
            simp only [Except.ok.injEq, decide_eq_true_eq] at h
            exact ⟨p, recv, rfl, by omega, hs, h⟩
          · rintro ⟨p2, v, heq, -, hv, hx⟩
            cases heq
            rw [hs] at hv
            injection hv with hv
            subst hv
            simp only [Except.ok.injEq, decide_eq_true_eq]
            exact hx
  · intro payload hp
    rw [mkChecksumSentence,
        validate_checksum_built payload (xorBytes payload) hp (xorBytes_lt_256 payload)]
    simp
  · intro payload i b hp hi hb hbyte
    have hp2 : '*' ∉ payload.set i b := by
      intro hmem
      rcases List.mem_or_eq_of_mem_set hmem with h | h
      · exact hp h
      · exact hb h.symm
    rw [validate_checksum_built (payload.set i b) (xorBytes payload) hp2
        (xorBytes_lt_256 payload)]
    have hne : xorBytes (payload.set i b) ≠ xorBytes payload := by
      intro heq
      have hset := xorBytes_set payload i b hi
      rw [heq, Nat.xor_self] at hset
      have := (Nat.xor_eq_zero.mp hset.symm)
      exact hbyte this
    simp only [Except.ok.injEq, decide_eq_false_iff_not]
    intro hcast
    exact hne (by exact_mod_cast hcast)

/-- C3 witness: the corrected theorem applied to the payload `"A00B"`,
mutating index 0 from `'A'` to `'B'`. -/
theorem checksum_validation_correct_witness :
    validate_checksum (mkChecksumSentence ['A', '0', '0', 'B']) = .ok true
    ∧ validate_checksum
        ('$' :: (['A', '0', '0', 'B'].set 0 'B') ++ '*' :: toHex2 (xorBytes ['A', '0', '0', 'B'])) =
        .ok false
    ∧ (validate_checksum ['$', 'A', '0', '0', 'B', '*', '0', '3'] = .ok true ↔
        checksumSpecValid ['$', 'A', '0', '0', 'B', '*', '0', '3']) :=
  ⟨checksum_validation_correct.2.1 ['A', '0', '0', 'B'] (by decide),
   checksum_validation_correct.2.2 ['A', '0', '0', 'B'] 0 'B' (by decide) (by decide)
     (by decide) (by decide),
   checksum_validation_correct.1 ['$', 'A', '0', '0', 'B', '*', '0', '3']⟩

/-! ## Claim C4: rejected lines are dropped silently -/

theorem findChar_isSome_of_validate_ok_true (s : List Char)
    (h : validate_checksum s = .ok true) : ∃ p, findChar '*' s = some p := by
  cases hf : findChar '*' s with
  | none =>
    exfalso
    simp [validate_checksum, hf] at h
  | some p => exact ⟨p, rfl⟩

/-- C4 counterexample.  The line `"$PHTG,a,b,c,d,Z*79"` has a correct
checksum and only five payload fields — the claim's "fewer than six payload
fields" trigger — yet processing it does NOT drop it silently: the parse
loop runs `std::stoi("Z")` for the fifth field before the field-count test,
which throws `std::invalid_argument`; the exception escapes
`process_nmea_line` (nothing catches it), so an error IS surfaced. -/
theorem process_rejected_line_counterexample :
    (bodyTokens ['$', 'P', 'H', 'T', 'G', ',', 'a', ',', 'b', ',', 'c', ',', 'd',
        ',', 'Z', '*', '7', '9']).length = 5
    ∧ validate_checksum ['$', 'P', 'H', 'T', 'G', ',', 'a', ',', 'b', ',', 'c', ',', 'd',
        ',', 'Z', '*', '7', '9'] = .ok true
    ∧ process_nmea_line ['$', 'P', 'H', 'T', 'G', ',', 'a', ',', 'b', ',', 'c', ',', 'd',
        ',', 'Z', '*', '7', '9'] ⟨0, 0⟩ = .error () :=
  ⟨rfl, rfl, rfl⟩

/-- C4 (corrected).  A line with a bad tag, a checksum mismatch
(`validate_checksum` returning false), or — provided the 5th and 6th body
tokens, where present, parse without a `std::stoi` exception — fewer than
six payload fields, is dropped: the stored auth/warning state is unchanged
and no error is surfaced.  (Without the parseability proviso the claim
fails: see the counterexample.) -/
theorem process_rejected_line_no_mutation (l : List Char) (st : AuthState)
    (h : ¬ (l.take 5 = ['$', 'P', 'H', 'T', 'G'])
       ∨ validate_checksum l = .ok false
       ∨ (validate_checksum l = .ok true ∧ (bodyTokens l).length < 6
          ∧ (parseAuthField (bodyTokens l)[4]?).isOk = true
          ∧ (parseAuthField (bodyTokens l)[5]?).isOk = true)) :
    process_nmea_line l st = .ok st := by
  by_cases htag : 5 ≤ l.length ∧ l.take 5 = ['$', 'P', 'H', 'T', 'G']
  · have h5 : ¬ (l.length < 5) := by omega
    have hp : parse_phtg l = .ok none := by
      rcases h with h | hval | ⟨hval, hlen6, h4, h5ok⟩
      · exact absurd htag.2 h
      · simp [parse_phtg, h5, htag.2, hval]
      · obtain ⟨p, hfp⟩ := findChar_isSome_of_validate_ok_true l hval
        have h6 : ¬ (6 ≤ (bodyTokens l).length) := by omega
        cases ha4 : parseAuthField (bodyTokens l)[4]? with
        | error e => rw [ha4] at h4; cases h4
        | ok av =>
          cases ha5 : parseAuthField (bodyTokens l)[5]? with
          | error e => rw [ha5] at h5ok; cases h5ok
          | ok wv =>
            simp [parse_phtg, h5, htag.2, hval, hfp, ha4, ha5, h6]
    simp [process_nmea_line, htag, hp]
  · simp [process_nmea_line, htag]

/-- C4 witness: a line with a bad tag is dropped with the state untouched. -/
theorem process_rejected_line_no_mutation_witness :
    ¬ (['h', 'i'].take 5 = ['$', 'P', 'H', 'T', 'G'])
    ∧ process_nmea_line ['h', 'i'] ⟨3, 4⟩ = .ok ⟨3, 4⟩ :=
  ⟨by decide,
   process_rejected_line_no_mutation ['h', 'i'] ⟨3, 4⟩ (Or.inl (by decide))⟩

/-! ## Helper lemmas: the getline token loop on a comma-join -/

theorem getlineAux_append_comma (f : List Char) (tail : List Char) (hf : ',' ∉ f) :
    ∀ acc, getlineAux (f ++ ',' :: tail) acc = (acc ++ f) :: getlineAux tail [] := by
  induction f with
  | nil =>
    intro acc
    show getlineAux (',' :: tail) acc = _
    simp [getlineAux]
  | cons c cs ih =>
    intro acc
    have hc : ¬ (c = ',') := fun h => hf (h ▸ List.mem_cons_self c cs)
    have hcs : ',' ∉ cs := fun h => hf (List.mem_cons_of_mem c h)
    show getlineAux (c :: (cs ++ ',' :: tail)) acc = _
    simp only [getlineAux, if_neg hc]
    rw [ih hcs (acc ++ [c])]
    simp

theorem getlineAux_no_comma (f : List Char) (hf : ',' ∉ f) :
    ∀ acc, getlineAux f acc = if (acc ++ f).isEmpty then [] else [acc ++ f] := by
  induction f with
  | nil => intro acc; simp [getlineAux]
  | cons c cs ih =>
    intro acc
    have hc : ¬ (c = ',') := fun h => hf (h ▸ List.mem_cons_self c cs)
    have hcs : ',' ∉ cs := fun h => hf (List.mem_cons_of_mem c h)
    show getlineAux (c :: cs) acc = _
    simp only [getlineAux, if_neg hc]
    rw [ih hcs (acc ++ [c])]
    simp

theorem getlineTokens_joinComma :
    ∀ (fs : List (List Char)), fs ≠ [] → (∀ f ∈ fs, ',' ∉ f) →
      fs.getLast? ≠ some [] → getlineTokens (joinComma fs) = fs := by
  intro fs
  induction fs with
  | nil => intro h; cases h rfl
  | cons f rest ih =>
    intro _ hcf hlast
    cases rest with
    | nil =>
      have hf : f ≠ [] := by
        intro h
        exact hlast (by simp [h])
      show getlineAux f [] = [f]
      rw [getlineAux_no_comma f (hcf f (by simp)) []]
      simp [hf]
    | cons g rest2 =>
      have hjoin : joinComma (f :: g :: rest2) = f ++ ',' :: joinComma (g :: rest2) := rfl
      rw [getlineTokens, hjoin,
          getlineAux_append_comma f (joinComma (g :: rest2)) (hcf f (by simp)) []]
      rw [List.nil_append]
      congr 1
      exact ih (by simp) (fun x hx => hcf x (by simp [hx]))
        (by simpa using hlast)

theorem mem_joinComma :
    ∀ (fs : List (List Char)) (x : Char), x ∈ joinComma fs →
      x = ',' ∨ ∃ f ∈ fs, x ∈ f := by
  intro fs
  induction fs with
  | nil => intro x hx; cases hx
  | cons f rest ih =>
    intro x hx
    cases rest with
    | nil =>
      right
      exact ⟨f, by simp, hx⟩
    | cons g rest2 =>
      have hjoin : joinComma (f :: g :: rest2) = f ++ ',' :: joinComma (g :: rest2) := rfl
      rw [hjoin] at hx
      rcases List.mem_append.mp hx with h | h
      · right; exact ⟨f, by simp, h⟩
      · rcases List.mem_cons.mp h with h2 | h2
        · left; exact h2
        · rcases ih x h2 with h3 | ⟨f2, hf2, hxf2⟩
          · left; exact h3
          · right; exact ⟨f2, by simp [hf2], hxf2⟩

/-! ## Claim C5: parse round-trip -/

/-- C5 counterexample.  Building the sentence from six fields whose
warning (final) field is EMPTY — `("D","T","S","R","1","")`, giving
`"$PHTG,D,T,S,R,1,*[cs]"` — and parsing it back FAILS (`parse_phtg`
returns false, modelled `.ok none`): the trailing empty token is never
produced by the `std::getline` loop, so only five fields are counted,
not the claimed "empty warning field parses as 0, and the parse
succeeds". -/
theorem parse_roundtrip_counterexample :
    parse_phtg (mkPhtgSentence [['D'], ['T'], ['S'], ['R'], ['1'], []]) = .ok none
    ∧ (bodyTokens (mkPhtgSentence [['D'], ['T'], ['S'], ['R'], ['1'], []])).length = 5 :=
  ⟨rfl, rfl⟩

/-- C5 (corrected).  For six fields that contain no `,` and no `*`, whose
auth field is empty (parsing as 0) or a `std::stoi`-parseable integer
string, and whose warning field is a NON-EMPTY `std::stoi`-parseable
integer string, building the sentence with the fixed tag, the comma-joined
fields and a correct checksum and parsing it back yields exactly the six
field values and the parse succeeds.  (An empty warning field instead makes
the parse fail — see the counterexample.) -/
theorem parse_roundtrip (d t sy sv fa fw : List Char) (va vw : Int)
    (hstar : ∀ f ∈ [d, t, sy, sv, fa, fw], '*' ∉ f)
    (hcomma : ∀ f ∈ [d, t, sy, sv, fa, fw], ',' ∉ f)
    (ha : (fa = [] ∧ va = 0) ∨ (fa ≠ [] ∧ stoi10 fa = some va))
    (hw : fw ≠ [] ∧ stoi10 fw = some vw) :
    parse_phtg (mkPhtgSentence [d, t, sy, sv, fa, fw]) =
      .ok (some ⟨d, t, sy, sv, va, vw⟩) := by
  have hJstar : '*' ∉ joinComma [d, t, sy, sv, fa, fw] := by
    intro hmem
    rcases mem_joinComma _ '*' hmem with h | ⟨f, hf, hx⟩
    · exact absurd h (by decide)
    · exact hstar f hf hx
  have hqstar : '*' ∉ (['P', 'H', 'T', 'G', ','] ++ joinComma [d, t, sy, sv, fa, fw]) := by
    intro hmem
    rcases List.mem_append.mp hmem with h | h
    · exact absurd h (by decide)
    · exact hJstar h
  have hval : validate_checksum (mkPhtgSentence [d, t, sy, sv, fa, fw]) = .ok true := by
    rw [mkPhtgSentence, mkChecksumSentence,
        validate_checksum_built _ _ hqstar (xorBytes_lt_256 _)]
    simp
  have hstarpos : findChar '*' (mkPhtgSentence [d, t, sy, sv, fa, fw]) =
      some ((['P', 'H', 'T', 'G', ','] ++ joinComma [d, t, sy, sv, fa, fw]).length + 1) := by
    rw [mkPhtgSentence, mkChecksumSentence]
    exact findChar_mkChecksumSentence _ _ hqstar
  have hqlen : (['P', 'H', 'T', 'G', ','] ++ joinComma [d, t, sy, sv, fa, fw]).length =
      5 + (joinComma [d, t, sy, sv, fa, fw]).length := by
    simp
    omega
  have hlast : ([d, t, sy, sv, fa, fw].getLast?) ≠ some [] := by
    intro hcontra
    rw [show ([d, t, sy, sv, fa, fw].getLast?) = some fw from rfl] at hcontra
    exact hw.1 (Option.some.inj hcontra)
  have htoks : bodyTokens (mkPhtgSentence [d, t, sy, sv, fa, fw]) = [d, t, sy, sv, fa, fw] := by
    simp only [bodyTokens, hstarpos, hqlen]
    rw [if_neg (by omega : ¬ (5 + (joinComma [d, t, sy, sv, fa, fw]).length + 1 < 6))]
    have hdrop : (mkPhtgSentence [d, t, sy, sv, fa, fw]).drop 6 =
        joinComma [d, t, sy, sv, fa, fw] ++
          '*' :: toHex2 (xorBytes (['P', 'H', 'T', 'G', ','] ++
            joinComma [d, t, sy, sv, fa, fw])) := rfl
    rw [hdrop,
        show 5 + (joinComma [d, t, sy, sv, fa, fw]).length + 1 - 6 =
          (joinComma [d, t, sy, sv, fa, fw]).length from by omega,
        List.take_left]
    exact getlineTokens_joinComma _ (by simp) hcomma hlast
  have hlen : (mkPhtgSentence [d, t, sy, sv, fa, fw]).length =
      5 + (joinComma [d, t, sy, sv, fa, fw]).length + 4 := by
    simp [mkPhtgSentence, mkChecksumSentence, toHex2]
    omega
  have h1 : ¬ ((mkPhtgSentence [d, t, sy, sv, fa, fw]).length < 5) := by omega
  have h2 : (mkPhtgSentence [d, t, sy, sv, fa, fw]).take 5 = ['$', 'P', 'H', 'T', 'G'] := rfl
  have hpa : parseAuthField (some fa) = .ok va := by
    rcases ha with ⟨hfa, hva⟩ | ⟨hfane, hstoi⟩
    · subst hfa; subst hva; rfl
    · have hie : fa.isEmpty = false := by
        cases fa with
        | nil => cases hfane rfl
        | cons c cs => rfl
      simp [parseAuthField, hie, hstoi]
  have hpw : parseAuthField (some fw) = .ok vw := by
    have hie : fw.isEmpty = false := by
      cases hfw : fw with
      | nil => cases hw.1 hfw
      | cons c cs => rfl
    simp [parseAuthField, hie, hw.2]
  have hg4 : ([d, t, sy, sv, fa, fw] : List (List Char))[4]? = some fa := rfl
  have hg5 : ([d, t, sy, sv, fa, fw] : List (List Char))[5]? = some fw := rfl
  rw [parse_phtg.eq_def]
  rw [if_neg h1, if_neg (not_not_intro h2)]
  simp only [hval, hstarpos, htoks, hg4, hg5, hpa, hpw]
  rfl

/-- C5 witness: the corrected round-trip applied to the concrete fields
`("230101", "120000", "GAL", "RTK", "1", "0")` from the spec's example
sentence. -/
theorem parse_roundtrip_witness :
    parse_phtg (mkPhtgSentence
        [['2', '3', '0', '1', '0', '1'], ['1', '2', '0', '0', '0', '0'],
         ['G', 'A', 'L'], ['R', 'T', 'K'], ['1'], ['0']]) =
      .ok (some ⟨['2', '3', '0', '1', '0', '1'], ['1', '2', '0', '0', '0', '0'],
           ['G', 'A', 'L'], ['R', 'T', 'K'], 1, 0⟩) :=
  parse_roundtrip ['2', '3', '0', '1', '0', '1'] ['1', '2', '0', '0', '0', '0']
    ['G', 'A', 'L'] ['R', 'T', 'K'] ['1'] ['0'] 1 0
    (by decide) (by decide)
    (Or.inr ⟨by decide, by decide⟩) ⟨by decide, by decide⟩
